import Mathlib

/-!
# Logistic growth scripts: verification of the computational core

Shallow embedding over `ℝ` of the two scripts' computational core:

* `Script01.x_t` embeds the closed-form evaluator `x_t` of
  `src/01-logistic_growth.py` (lines 45-66).
* `Script02.x_t` embeds the identical evaluator `x_t` of
  `src/02-logistic_growth_matplotlib.py` (lines 14-34).
* `Script02.K`, `Script02.a`, `Script02.initial_conditions` embed the
  module-level constants of the second script; `np.linspace(lo, hi, n)` is
  embedded as the map `i ↦ lo + i * (hi - lo) / (n - 1)`.
* `Script02.t_sample` embeds `t = np.linspace(0, 100, 500)`.
* `Script02.reset_condition` embeds the guard of the reset branch inside
  `update` (line 101): all curves' values at the frame's time are `≥ K`.

Machine floats are modelled as exact reals; `x / 0 = 0` is Lean's total
division, so claims about denominators carry explicit nonzeroness facts.
-/

namespace LogisticGrowthSim

/-- `x_t` of `src/01-logistic_growth.py`:
`(K_prime * K * np.exp(a * t)) / (1 + K_prime * np.exp(a * t))`. -/
noncomputable def Script01.x_t (t K K_prime a : ℝ) : ℝ :=
  (K_prime * K * Real.exp (a * t)) / (1 + K_prime * Real.exp (a * t))

/-- `x_t` of `src/02-logistic_growth_matplotlib.py`: textually the same
formula as in the first script. -/
noncomputable def Script02.x_t (t K K_prime a : ℝ) : ℝ :=
  (K_prime * K * Real.exp (a * t)) / (1 + K_prime * Real.exp (a * t))

/-- The denominator subterm `1 + K_prime * np.exp(a * t)` shared by both
scripts' `x_t`. -/
noncomputable def x_t_denom (t K_prime a : ℝ) : ℝ :=
  1 + K_prime * Real.exp (a * t)

/-- Carrying capacity `K = 1.0` of `src/02-logistic_growth_matplotlib.py`. -/
noncomputable def Script02.K : ℝ := 1.0

/-- Growth rate `a = 0.1` of `src/02-logistic_growth_matplotlib.py`. -/
noncomputable def Script02.a : ℝ := 0.1

/-- `initial_conditions = np.linspace(0.1, 2.0, 35)` of the second script:
the `i`-th entry, for `i < 35`. -/
noncomputable def Script02.initial_conditions (i : ℕ) : ℝ :=
  0.1 + i * ((2.0 - 0.1) / 34)

/-- `t = np.linspace(0, 100, 500)` of the second script: the `i`-th sample. -/
noncomputable def Script02.t_sample (i : ℕ) : ℝ :=
  i * ((100 - 0) / 499)

/-- The guard of the reset branch in `update` (second script, line 101):
`np.all([x_t(t[frame], K, x0 / (K - x0), a) >= K for x0 in initial_conditions])`.
When it holds, `update` invokes `init` and clears the lines. -/
noncomputable def Script02.reset_condition (frame : ℕ) : Prop :=
  ∀ i < 35, Script02.K ≤
    Script02.x_t (Script02.t_sample frame) Script02.K
      (Script02.initial_conditions i / (Script02.K - Script02.initial_conditions i))
      Script02.a

/-! ## Helper lemmas about the evaluator -/

/-- The two scripts' evaluators agree definitionally. -/
theorem x_t_scripts_eq : Script01.x_t = Script02.x_t := rfl

/-- For a positive integration constant the denominator is positive. -/
theorem denom_pos (t K_prime a : ℝ) (hK' : 0 < K_prime) :
    0 < 1 + K_prime * Real.exp (a * t) := by
  have h := mul_pos hK' (Real.exp_pos (a * t))
  linarith

/-- For an integration constant below `-1`, a positive rate and a
nonnegative time the denominator is negative. -/
theorem denom_neg (t K_prime a : ℝ) (hK' : K_prime < -1) (ha : 0 < a)
    (ht : 0 ≤ t) : 1 + K_prime * Real.exp (a * t) < 0 := by
  have hE : 1 ≤ Real.exp (a * t) := Real.one_le_exp (mul_nonneg ha.le ht)
  nlinarith

/-- `x0 < K` yields a positive integration constant `x0 / (K - x0)`. -/
theorem K_prime_pos (K x0 : ℝ) (hx0 : 0 < x0) (hlt : x0 < K) :
    0 < x0 / (K - x0) :=
  div_pos hx0 (sub_pos.mpr hlt)

/-- `K < x0` with `0 < K` yields an integration constant below `-1`. -/
theorem K_prime_lt_neg_one (K x0 : ℝ) (hK : 0 < K) (hgt : K < x0) :
    x0 / (K - x0) < -1 := by
  have h1 : K - x0 < 0 := by linarith
  rw [div_lt_iff_of_neg h1]
  linarith

/-- Away from the singular denominator, `x_t` rewrites as
`K - K * (1 + K_prime * exp (a*t))⁻¹`. -/
theorem x_t_eq_sub (t K K_prime a : ℝ)
    (h : 1 + K_prime * Real.exp (a * t) ≠ 0) :
    Script01.x_t t K K_prime a = K - K * (1 + K_prime * Real.exp (a * t))⁻¹ := by
  rw [Script01.x_t]
  field_simp
  ring

/-- Positive constants give a positive value. -/
theorem x_t_pos (t K K_prime a : ℝ) (hK : 0 < K) (hK' : 0 < K_prime) :
    0 < Script01.x_t t K K_prime a :=
  div_pos (mul_pos (mul_pos hK' hK) (Real.exp_pos (a * t)))
    (denom_pos t K_prime a hK')

/-- Positive constants keep the value strictly below the carrying capacity. -/
theorem x_t_lt_K (t K K_prime a : ℝ) (hK : 0 < K) (hK' : 0 < K_prime) :
    Script01.x_t t K K_prime a < K := by
  have h1 := denom_pos t K_prime a hK'
  rw [Script01.x_t, div_lt_iff₀ h1]
  nlinarith [Real.exp_pos (a * t)]

/-- An integration constant below `-1` keeps the value strictly above the
carrying capacity at nonnegative times. -/
theorem K_lt_x_t (t K K_prime a : ℝ) (hK : 0 < K) (hK' : K_prime < -1)
    (ha : 0 < a) (ht : 0 ≤ t) : K < Script01.x_t t K K_prime a := by
  have h1 := denom_neg t K_prime a hK' ha ht
  rw [Script01.x_t, lt_div_iff_of_neg h1]
  nlinarith [Real.exp_pos (a * t)]

/-- With a positive integration constant and positive rate, the curve is
strictly increasing on all of `ℝ`. -/
theorem x_t_strictMono (K K_prime a : ℝ) (hK : 0 < K) (hK' : 0 < K_prime)
    (ha : 0 < a) : StrictMono (fun t => Script01.x_t t K K_prime a) := by
  intro t1 t2 ht
  simp only [Script01.x_t]
  have hE : Real.exp (a * t1) < Real.exp (a * t2) :=
    Real.exp_lt_exp.mpr (by nlinarith)
  have h1 := denom_pos t1 K_prime a hK'
  have h2 := denom_pos t2 K_prime a hK'
  rw [div_lt_div_iff₀ h1 h2]
  nlinarith [mul_pos hK' hK, Real.exp_pos (a * t1), Real.exp_pos (a * t2)]

/-- With an integration constant below `-1` and positive rate, the curve is
strictly decreasing on the nonnegative time axis. -/
theorem x_t_strictAntiOn (K K_prime a : ℝ) (hK : 0 < K) (hK' : K_prime < -1)
    (ha : 0 < a) : StrictAntiOn (fun t => Script01.x_t t K K_prime a) (Set.Ici 0) := by
  intro t1 ht1 t2 ht2 ht
  simp only [Script01.x_t]
  have hE : Real.exp (a * t1) < Real.exp (a * t2) :=
    Real.exp_lt_exp.mpr (by nlinarith)
  have h1 := denom_neg t1 K_prime a hK' ha ht1
  have h2 := denom_neg t2 K_prime a hK' ha ht2
  rw [← sub_pos]
  have key : K_prime * K * Real.exp (a * t1) / (1 + K_prime * Real.exp (a * t1))
        - K_prime * K * Real.exp (a * t2) / (1 + K_prime * Real.exp (a * t2))
      = K_prime * K * (Real.exp (a * t1) - Real.exp (a * t2))
        / ((1 + K_prime * Real.exp (a * t1)) * (1 + K_prime * Real.exp (a * t2))) := by
    rw [div_sub_div _ _ (ne_of_lt h1) (ne_of_lt h2)]
    congr 1
    ring
  rw [key]
  apply div_pos
  · have hprod : 0 < (-K_prime) * K * (Real.exp (a * t2) - Real.exp (a * t1)) :=
      mul_pos (mul_pos (by linarith) hK) (by linarith)
    nlinarith
  · exact mul_pos_of_neg_of_neg h1 h2

/-- With a positive rate, `a * t` tends to infinity with `t`. -/
theorem rate_mul_tendsto_atTop (a : ℝ) (ha : 0 < a) :
    Filter.Tendsto (fun t : ℝ => a * t) Filter.atTop Filter.atTop :=
  (Filter.tendsto_const_mul_atTop_of_pos ha).mpr Filter.tendsto_id

/-- With a positive integration constant and positive rate, the denominator
tends to infinity with `t`. -/
theorem denom_tendsto_atTop (K_prime a : ℝ) (hK' : 0 < K_prime) (ha : 0 < a) :
    Filter.Tendsto (fun t : ℝ => 1 + K_prime * Real.exp (a * t))
      Filter.atTop Filter.atTop := by
  apply Filter.tendsto_atTop_add_const_left
  exact (Filter.tendsto_const_mul_atTop_of_pos hK').mpr
    (Real.tendsto_exp_atTop.comp (rate_mul_tendsto_atTop a ha))

/-- With a negative integration constant and positive rate, the denominator
tends to negative infinity with `t`. -/
theorem denom_tendsto_atBot (K_prime a : ℝ) (hK' : K_prime < 0) (ha : 0 < a) :
    Filter.Tendsto (fun t : ℝ => 1 + K_prime * Real.exp (a * t))
      Filter.atTop Filter.atBot := by
  apply Filter.tendsto_atBot_add_const_left
  exact (Filter.tendsto_const_mul_atBot_of_neg hK').mpr
    (Real.tendsto_exp_atTop.comp (rate_mul_tendsto_atTop a ha))

/-- With a positive integration constant and positive rate, the curve tends
to the carrying capacity. -/
theorem x_t_tendsto_of_pos (K K_prime a : ℝ) (hK' : 0 < K_prime) (ha : 0 < a) :
    Filter.Tendsto (fun t => Script01.x_t t K K_prime a) Filter.atTop (nhds K) := by
  have hinv : Filter.Tendsto (fun t : ℝ => (1 + K_prime * Real.exp (a * t))⁻¹)
      Filter.atTop (nhds 0) :=
    (denom_tendsto_atTop K_prime a hK' ha).inv_tendsto_atTop
  have hmain : Filter.Tendsto
      (fun t : ℝ => K - K * (1 + K_prime * Real.exp (a * t))⁻¹)
      Filter.atTop (nhds K) := by
    have h := Filter.Tendsto.const_sub K (hinv.const_mul K)
    simpa using h
  apply hmain.congr
  intro t
  exact (x_t_eq_sub t K K_prime a (ne_of_gt (denom_pos t K_prime a hK'))).symm

/-- With an integration constant below `-1` and positive rate, the curve
also tends to the carrying capacity. -/
theorem x_t_tendsto_of_neg (K K_prime a : ℝ) (hK' : K_prime < -1) (ha : 0 < a) :
    Filter.Tendsto (fun t => Script01.x_t t K K_prime a) Filter.atTop (nhds K) := by
  have hden := denom_tendsto_atBot K_prime a (by linarith) ha
  have hneg : Filter.Tendsto (fun t : ℝ => -(1 + K_prime * Real.exp (a * t)))
      Filter.atTop Filter.atTop := Filter.tendsto_neg_atTop_iff.mpr hden
  have hinv0 : Filter.Tendsto
      (fun t : ℝ => (-(1 + K_prime * Real.exp (a * t)))⁻¹)
      Filter.atTop (nhds 0) := hneg.inv_tendsto_atTop
  have hinv : Filter.Tendsto (fun t : ℝ => (1 + K_prime * Real.exp (a * t))⁻¹)
      Filter.atTop (nhds 0) := by
    have h := hinv0.neg
    rw [neg_zero] at h
    apply h.congr
    intro t
    rw [inv_neg, neg_neg]
  have hmain : Filter.Tendsto
      (fun t : ℝ => K - K * (1 + K_prime * Real.exp (a * t))⁻¹)
      Filter.atTop (nhds K) := by
    have h := Filter.Tendsto.const_sub K (hinv.const_mul K)
    simpa using h
  apply hmain.congr'
  filter_upwards [Filter.eventually_ge_atTop 0] with t ht
  exact (x_t_eq_sub t K K_prime a (ne_of_lt (denom_neg t K_prime a hK' ha ht))).symm

/-! ## The claims -/

/-- Claim C1: for every real `t` and reals `K`, `K_prime`, `a` such that
`1 + K_prime * exp (a*t)` is nonzero, the evaluator `x_t` returns exactly
`(K_prime * K * exp (a*t)) / (1 + K_prime * exp (a*t))`, in both scripts. -/
theorem C1_x_t_formula (t K K_prime a : ℝ)
    (h : 1 + K_prime * Real.exp (a * t) ≠ 0) :
    Script01.x_t t K K_prime a
      = K_prime * K * Real.exp (a * t) / (1 + K_prime * Real.exp (a * t)) ∧
    Script02.x_t t K K_prime a
      = K_prime * K * Real.exp (a * t) / (1 + K_prime * Real.exp (a * t)) :=
  ⟨rfl, rfl⟩

/-- Witness for C1 at `t = 0`, `K = 1`, `K_prime = 1`, `a = 0`. -/
theorem C1_x_t_formula_witness :
    Script01.x_t 0 1 1 0
      = 1 * 1 * Real.exp ((0 : ℝ) * 0) / (1 + 1 * Real.exp ((0 : ℝ) * 0)) ∧
    Script02.x_t 0 1 1 0
      = 1 * 1 * Real.exp ((0 : ℝ) * 0) / (1 + 1 * Real.exp ((0 : ℝ) * 0)) :=
  C1_x_t_formula 0 1 1 0 (by positivity)

/-- Claim C3: for every `K > 0`, every real `a`, and every `x0 > 0` with
`x0 ≠ K`, deriving `K_prime = x0 / (K - x0)` and then evaluating at time 0
recovers `x0` exactly, in both scripts. -/
theorem C3_roundtrip (K a x0 : ℝ) (hK : 0 < K) (hx0 : 0 < x0) (hne : x0 ≠ K) :
    Script01.x_t 0 K (x0 / (K - x0)) a = x0 ∧
    Script02.x_t 0 K (x0 / (K - x0)) a = x0 := by
  have main : Script01.x_t 0 K (x0 / (K - x0)) a = x0 := by
    show x0 / (K - x0) * K * Real.exp (a * 0)
        / (1 + x0 / (K - x0) * Real.exp (a * 0)) = x0
    rw [mul_zero, Real.exp_zero, mul_one, mul_one]
    have h1 : K - x0 ≠ 0 := sub_ne_zero.mpr (Ne.symm hne)
    field_simp
  exact ⟨main, main⟩

/-- Witness for C3 at `K = 1`, `a = 2`, `x0 = 1/2`. -/
theorem C3_roundtrip_witness :
    Script01.x_t 0 1 ((1 / 2 : ℝ) / (1 - 1 / 2)) 2 = 1 / 2 ∧
    Script02.x_t 0 1 ((1 / 2 : ℝ) / (1 - 1 / 2)) 2 = 1 / 2 :=
  C3_roundtrip 1 2 (1 / 2) (by norm_num) (by norm_num) (by norm_num)

/-- Claim C4: for all `K > 0`, `a > 0`, `x0 ∈ (0, K)`, with
`K_prime = x0 / (K - x0)`, the curve `t ↦ x_t t K K_prime a` is strictly
increasing in `t` and tends to `K` as `t → ∞`. -/
theorem C4_increasing_tendsto (K a x0 : ℝ) (hK : 0 < K) (ha : 0 < a)
    (hx0 : 0 < x0) (hxK : x0 < K) :
    StrictMono (fun t => Script02.x_t t K (x0 / (K - x0)) a) ∧
    Filter.Tendsto (fun t => Script02.x_t t K (x0 / (K - x0)) a)
      Filter.atTop (nhds K) := by
  have hK' : 0 < x0 / (K - x0) := K_prime_pos K x0 hx0 hxK
  exact ⟨x_t_strictMono K (x0 / (K - x0)) a hK hK' ha,
    x_t_tendsto_of_pos K (x0 / (K - x0)) a hK' ha⟩

/-- Witness for C4 at `K = 1`, `a = 1`, `x0 = 1/2`. -/
theorem C4_increasing_tendsto_witness :
    StrictMono (fun t => Script02.x_t t 1 ((1 / 2 : ℝ) / (1 - 1 / 2)) 1) ∧
    Filter.Tendsto (fun t => Script02.x_t t 1 ((1 / 2 : ℝ) / (1 - 1 / 2)) 1)
      Filter.atTop (nhds 1) :=
  C4_increasing_tendsto 1 1 (1 / 2) (by norm_num) (by norm_num) (by norm_num)
    (by norm_num)

/-- Claim C5: for all `K > 0`, `a > 0`, `x0 > K`, with
`K_prime = x0 / (K - x0)`, the curve is strictly decreasing on the
nonnegative time axis, stays `≥ K` for all `t ≥ 0` and tends to `K` from
above; for `K = 1.0`, `x0 = 1.5` the derived constant is `-3.0`. -/
theorem C5_decreasing_above (K a x0 : ℝ) (hK : 0 < K) (ha : 0 < a)
    (hgt : K < x0) :
    StrictAntiOn (fun t => Script02.x_t t K (x0 / (K - x0)) a) (Set.Ici 0) ∧
    (∀ t, 0 ≤ t → K ≤ Script02.x_t t K (x0 / (K - x0)) a) ∧
    Filter.Tendsto (fun t => Script02.x_t t K (x0 / (K - x0)) a)
      Filter.atTop (nhds K) ∧
    (1.5 : ℝ) / (1 - 1.5) = -3 := by
  have hK' : x0 / (K - x0) < -1 := K_prime_lt_neg_one K x0 hK hgt
  exact ⟨x_t_strictAntiOn K (x0 / (K - x0)) a hK hK' ha,
    fun t ht => (K_lt_x_t t K (x0 / (K - x0)) a hK hK' ha ht).le,
    x_t_tendsto_of_neg K (x0 / (K - x0)) a hK' ha,
    by norm_num⟩

/-- Witness for C5 at `K = 1`, `a = 1`, `x0 = 2`. -/
theorem C5_decreasing_above_witness :
    StrictAntiOn (fun t => Script02.x_t t 1 ((2 : ℝ) / (1 - 2)) 1) (Set.Ici 0) ∧
    (∀ t, 0 ≤ t → 1 ≤ Script02.x_t t 1 ((2 : ℝ) / (1 - 2)) 1) ∧
    Filter.Tendsto (fun t => Script02.x_t t 1 ((2 : ℝ) / (1 - 2)) 1)
      Filter.atTop (nhds 1) ∧
    (1.5 : ℝ) / (1 - 1.5) = -3 :=
  C5_decreasing_above 1 1 2 (by norm_num) (by norm_num) (by norm_num)

/-- Claim C6: nonnegativity — for every valid input (`K > 0`, `x0 > 0`,
`x0 ≠ K`, `a > 0`, `t ≥ 0`), with `K_prime = x0 / (K - x0)`, the evaluated
value is nonnegative, in both scripts. -/
theorem C6_nonneg (K a x0 t : ℝ) (hK : 0 < K) (hx0 : 0 < x0) (hne : x0 ≠ K)
    (ha : 0 < a) (ht : 0 ≤ t) :
    0 ≤ Script01.x_t t K (x0 / (K - x0)) a ∧
    0 ≤ Script02.x_t t K (x0 / (K - x0)) a := by
  have main : 0 ≤ Script01.x_t t K (x0 / (K - x0)) a := by
    rcases lt_or_gt_of_ne hne with hlt | hgt
    · exact (x_t_pos t K (x0 / (K - x0)) a hK (K_prime_pos K x0 hx0 hlt)).le
    · have hK' := K_prime_lt_neg_one K x0 hK hgt
      linarith [K_lt_x_t t K (x0 / (K - x0)) a hK hK' ha ht]
  exact ⟨main, main⟩

/-- Witness for C6 at `K = 1`, `a = 1`, `x0 = 2`, `t = 0`. -/
theorem C6_nonneg_witness :
    0 ≤ Script01.x_t 0 1 ((2 : ℝ) / (1 - 2)) 1 ∧
    0 ≤ Script02.x_t 0 1 ((2 : ℝ) / (1 - 2)) 1 :=
  C6_nonneg 1 1 2 0 (by norm_num) (by norm_num) (by norm_num) (by norm_num)
    (by norm_num)

/-- Claim C7: scale invariance — for every `c > 0`, `K > 0`, `x0 > 0` with
`x0 ≠ K` and arbitrary `a`, `t`, scaling `K` to `c*K` and `x0` to `c*x0`
(re-deriving the integration constant) leaves the normalized value
`x_t / K` unchanged. -/
theorem C7_scale_invariance (c K a t x0 : ℝ) (hc : 0 < c) (hK : 0 < K)
    (hx0 : 0 < x0) (hne : x0 ≠ K) :
    Script02.x_t t (c * K) (c * x0 / (c * K - c * x0)) a / (c * K)
      = Script02.x_t t K (x0 / (K - x0)) a / K := by
  have hc0 : c ≠ 0 := ne_of_gt hc
  have hkp : c * x0 / (c * K - c * x0) = x0 / (K - x0) := by
    rw [← mul_sub, mul_div_mul_left x0 (K - x0) hc0]
  rw [hkp]
  show x0 / (K - x0) * (c * K) * Real.exp (a * t)
      / (1 + x0 / (K - x0) * Real.exp (a * t)) / (c * K)
    = x0 / (K - x0) * K * Real.exp (a * t)
      / (1 + x0 / (K - x0) * Real.exp (a * t)) / K
  have gen : ∀ m : ℝ, m ≠ 0 →
      x0 / (K - x0) * m * Real.exp (a * t)
          / (1 + x0 / (K - x0) * Real.exp (a * t)) / m
        = x0 / (K - x0) * Real.exp (a * t)
          / (1 + x0 / (K - x0) * Real.exp (a * t)) := by
    intro m hm
    rw [div_div, show x0 / (K - x0) * m * Real.exp (a * t)
        = x0 / (K - x0) * Real.exp (a * t) * m by ring,
      mul_div_mul_right _ _ hm]
  rw [gen (c * K) (mul_ne_zero (ne_of_gt hc) (ne_of_gt hK)),
    gen K (ne_of_gt hK)]

/-- Witness for C7 at `c = 2`, `K = 1`, `a = 1`, `t = 0`, `x0 = 3`. -/
theorem C7_scale_invariance_witness :
    Script02.x_t 0 (2 * 1) (2 * 3 / (2 * 1 - 2 * 3)) 1 / (2 * 1)
      = Script02.x_t 0 1 ((3 : ℝ) / (1 - 3)) 1 / 1 :=
  C7_scale_invariance 2 1 1 0 3 (by norm_num) (by norm_num) (by norm_num)
    (by norm_num)

/-- Claim C8: the concrete scenario of the first script — for `K = 1.0`,
`a = 0.5`, `x0 = 0.5` the derived constant `x0 / (K - x0)` is `1.0`;
`x_t 0 1 1 0.5 = 0.5`; and `x_t 10 1 1 0.5` is within `1e-3` of `0.9933`. -/
theorem C8_concrete_scenario :
    (0.5 : ℝ) / (1 - 0.5) = 1 ∧
    Script01.x_t 0 1 1 0.5 = 0.5 ∧
    |Script01.x_t 10 1 1 0.5 - 0.9933| ≤ 1e-3 := by
  refine ⟨by norm_num, ?_, ?_⟩
  · show (1 : ℝ) * 1 * Real.exp (0.5 * 0) / (1 + 1 * Real.exp (0.5 * 0)) = 0.5
    rw [mul_zero, Real.exp_zero]
    norm_num
  · have hE : Script01.x_t 10 1 1 0.5
        = Real.exp 1 ^ (5 : ℕ) / (1 + Real.exp 1 ^ (5 : ℕ)) := by
      show (1 : ℝ) * 1 * Real.exp (0.5 * 10) / (1 + 1 * Real.exp (0.5 * 10))
          = Real.exp 1 ^ (5 : ℕ) / (1 + Real.exp 1 ^ (5 : ℕ))
      rw [show (0.5 : ℝ) * 10 = ((5 : ℕ) : ℝ) * 1 by norm_num, Real.exp_nat_mul]
      norm_num
    have hgt : (2.71 : ℝ) < Real.exp 1 := lt_trans (by norm_num) Real.exp_one_gt_d9
    have hlt : Real.exp 1 < (2.72 : ℝ) := lt_trans Real.exp_one_lt_d9 (by norm_num)
    have hl5 : (2.71 : ℝ) ^ (5 : ℕ) < Real.exp 1 ^ (5 : ℕ) :=
      pow_lt_pow_left₀ hgt (by norm_num) (by norm_num)
    have hu5 : Real.exp 1 ^ (5 : ℕ) < (2.72 : ℝ) ^ (5 : ℕ) :=
      pow_lt_pow_left₀ hlt (Real.exp_pos 1).le (by norm_num)
    have hl : (146 : ℝ) < Real.exp 1 ^ (5 : ℕ) := by
      have : (146 : ℝ) < (2.71 : ℝ) ^ (5 : ℕ) := by norm_num
      linarith
    have hu : Real.exp 1 ^ (5 : ℕ) < (149 : ℝ) := by
      have : (2.72 : ℝ) ^ (5 : ℕ) < (149 : ℝ) := by norm_num
      linarith
    have hd : (0 : ℝ) < 1 + Real.exp 1 ^ (5 : ℕ) := by positivity
    have low : (0.9923 : ℝ) ≤ Real.exp 1 ^ (5 : ℕ) / (1 + Real.exp 1 ^ (5 : ℕ)) := by
      rw [le_div_iff₀ hd]
      linarith
    have high : Real.exp 1 ^ (5 : ℕ) / (1 + Real.exp 1 ^ (5 : ℕ)) ≤ (0.9943 : ℝ) := by
      rw [div_le_iff₀ hd]
      linarith
    rw [hE, abs_le]
    constructor
    · linarith
    · linarith

/-- Claim C9: on the physical domain (`K > 0`, `a > 0`, `t ≥ 0`, `x0 > 0`,
`x0 ≠ K`, `K_prime = x0 / (K - x0)`) the denominator of `x_t` is nonzero —
strictly positive when `x0 < K`, strictly negative when `x0 > K` — so the
division in `x_t` is exact: multiplying the value back by the denominator
recovers the numerator. -/
theorem C9_denom_ne_zero (K a x0 t : ℝ) (hK : 0 < K) (ha : 0 < a)
    (ht : 0 ≤ t) (hx0 : 0 < x0) (hne : x0 ≠ K) :
    x_t_denom t (x0 / (K - x0)) a ≠ 0 ∧
    (x0 < K → 0 < x_t_denom t (x0 / (K - x0)) a) ∧
    (K < x0 → x_t_denom t (x0 / (K - x0)) a < 0) ∧
    Script01.x_t t K (x0 / (K - x0)) a * x_t_denom t (x0 / (K - x0)) a
      = x0 / (K - x0) * K * Real.exp (a * t) := by
  have hpos : x0 < K → 0 < x_t_denom t (x0 / (K - x0)) a :=
    fun hlt => denom_pos t (x0 / (K - x0)) a (K_prime_pos K x0 hx0 hlt)
  have hneg : K < x0 → x_t_denom t (x0 / (K - x0)) a < 0 :=
    fun hgt => denom_neg t (x0 / (K - x0)) a (K_prime_lt_neg_one K x0 hK hgt)
      ha ht
  have hne0 : x_t_denom t (x0 / (K - x0)) a ≠ 0 := by
    rcases lt_or_gt_of_ne hne with hlt | hgt
    · exact ne_of_gt (hpos hlt)
    · exact ne_of_lt (hneg hgt)
  exact ⟨hne0, hpos, hneg,
    div_mul_cancel₀ (x0 / (K - x0) * K * Real.exp (a * t)) hne0⟩

/-- Witness for C9 at `K = 1`, `a = 1`, `x0 = 2`, `t = 0`. -/
theorem C9_denom_ne_zero_witness :
    x_t_denom 0 ((2 : ℝ) / (1 - 2)) 1 ≠ 0 ∧
    ((2 : ℝ) < 1 → 0 < x_t_denom 0 ((2 : ℝ) / (1 - 2)) 1) ∧
    ((1 : ℝ) < 2 → x_t_denom 0 ((2 : ℝ) / (1 - 2)) 1 < 0) ∧
    Script01.x_t 0 1 ((2 : ℝ) / (1 - 2)) 1 * x_t_denom 0 ((2 : ℝ) / (1 - 2)) 1
      = (2 : ℝ) / (1 - 2) * 1 * Real.exp (1 * 0) :=
  C9_denom_ne_zero 1 1 2 0 (by norm_num) (by norm_num) (by norm_num)
    (by norm_num) (by norm_num)

/-- Claim C10: the reset branch of `update` in the second script is
unreachable in exact arithmetic — the first initial condition `0.1` lies
strictly below `K = 1.0`, its curve stays strictly below `K` at every
frame's time, so the guard asking every curve to be `≥ K` never holds and
`update` never invokes `init`. -/
theorem C10_reset_unreachable (frame : ℕ) :
    Script02.initial_conditions 0 < Script02.K ∧
    ¬ Script02.reset_condition frame := by
  constructor
  · show (0.1 : ℝ) + (0 : ℕ) * ((2.0 - 0.1) / 34) < 1.0
    norm_num
  · intro h
    have h0 := h 0 (by norm_num)
    have hK : (0 : ℝ) < Script02.K := by
      show (0 : ℝ) < 1.0
      norm_num
    have hK' : 0 < Script02.initial_conditions 0
        / (Script02.K - Script02.initial_conditions 0) := by
      apply div_pos
      · show (0 : ℝ) < 0.1 + (0 : ℕ) * ((2.0 - 0.1) / 34)
        norm_num
      · show (0 : ℝ) < 1.0 - (0.1 + (0 : ℕ) * ((2.0 - 0.1) / 34))
        norm_num
    have hlt := x_t_lt_K (Script02.t_sample frame) Script02.K
      (Script02.initial_conditions 0 / (Script02.K - Script02.initial_conditions 0))
      Script02.a hK hK'
    exact absurd h0 (not_le.mpr hlt)

end LogisticGrowthSim
